import Mathlib

/-!
Verification of the acquisition orchestration layer of the
`descarga_de_videos` scripts (`descarga_de_videos.py`, `download.py`).

The Python code is shallowly embedded: the filesystem is a listing of
`FileEntry` records (path and size) in directory-enumeration order
(`glob.glob` returns entries in that order), the external media-fetch
engine (yt-dlp) is a parameter describing the outcome of its two calls
(metadata extraction and transfer), and `functools.lru_cache` is an
explicit bounded LRU cache value.  Machine strings are Lean `String`s;
`str.lower()` is modelled as character-wise `Char.toLower` (all markers
and extensions involved are ASCII).
-/

namespace Descarga

/-! ### Character-list utilities (substring / prefix tests, `str.lower()`) -/

/-- `listStartsWith pre l` is true when `pre` is an initial run of `l`
(the model of Python string prefix tests used by glob matching). -/
def listStartsWith : List Char → List Char → Bool
  | [], _ => true
  | _ :: _, [] => false
  | a :: as, b :: bs => a == b && listStartsWith as bs

/-- `listHasRun needle hay` is true when `needle` occurs as a contiguous
run inside `hay`: the model of Python's `needle in hay` substring test. -/
def listHasRun (needle : List Char) : List Char → Bool
  | [] => needle.isEmpty
  | c :: t => listStartsWith needle (c :: t) || listHasRun needle t

/-- Python `needle in hay` on strings. -/
def strHasSub (needle hay : String) : Bool :=
  listHasRun needle.data hay.data

/-- Python `s.lower()` (character-wise; the constants compared are ASCII). -/
def lowerStr (s : String) : String :=
  ⟨s.data.map Char.toLower⟩

/-- Characters of a path after its last `/` (the basename). -/
def baseNameChars (p : List Char) : List Char :=
  ((p.reverse).takeWhile (fun c => !(c == '/'))).reverse

/-- Characters of a path before its last `/` (`os.path.dirname`);
empty when there is no `/`. -/
def dirNameChars (p : List Char) : List Char :=
  (((p.reverse).dropWhile (fun c => !(c == '/'))).drop 1).reverse

/-- `os.path.splitext` extension of a basename: the part from the last dot,
unless every character before that dot is itself a dot (then no extension,
as for `.bashrc`). -/
def extOfBase (base : List Char) : List Char :=
  let revAfter := (base.reverse).takeWhile (fun c => !(c == '.'))
  if revAfter.length == base.length then []
  else
    let stem := base.take (base.length - revAfter.length - 1)
    if stem.all (fun c => c == '.') then [] else '.' :: revAfter.reverse

/-- `os.path.splitext(p)[1]` on a full path. -/
def extOf (p : String) : String :=
  ⟨extOfBase (baseNameChars p.data)⟩

/-- The stem (`os.path.splitext(p)[0]` restricted to the basename):
basename minus its extension. -/
def stemOfBase (base : List Char) : List Char :=
  base.take (base.length - (extOfBase base).length)

/-! ### Asset Prober (`find_existing_asset`, `descarga_de_videos.py`) -/

/-- One file of the output directory: its full path and its size in bytes. -/
structure FileEntry where
  path : String
  size : Nat
deriving DecidableEq, Repr

/-- The output directory contents, in directory-enumeration order: the
order in which `glob.glob` yields matching paths. -/
abbrev FS := List FileEntry

/-- `VALID_FINAL_EXTS` from `descarga_de_videos.py` line 17. -/
def VALID_FINAL_EXTS : List String :=
  [".mp4", ".mkv", ".webm", ".mov", ".m4v", ".mp3", ".aac", ".opus", ".m4a"]

/-- `TEMP_EXT_CONTAINS` from `descarga_de_videos.py` line 18. -/
def TEMP_EXT_CONTAINS : List String :=
  [".part", ".ytdl", ".temp", ".tmp"]

/-- Whether a path matches the glob pattern
`os.path.join(output_dir, stem ++ ".*")`: the joined pattern head is an
initial run of the path and the remainder crosses no `/`
(glob's `*` does not match the path separator). -/
def globMatch (output_dir stem : String) (p : String) : Bool :=
  let pre := (output_dir ++ "/" ++ stem ++ ".").data
  listStartsWith pre p.data && !((p.data.drop pre.length).any (fun c => c == '/'))

/-- `any(t in path.lower() for t in TEMP_EXT_CONTAINS)`. -/
def tempMarked (p : String) : Bool :=
  TEMP_EXT_CONTAINS.any (fun t => strHasSub t (lowerStr p))

/-- `ext.lower() in VALID_FINAL_EXTS` for the path's `splitext` extension. -/
def validFinal (p : String) : Bool :=
  VALID_FINAL_EXTS.contains (lowerStr (extOf p))

/-- `find_existing_asset` (`descarga_de_videos.py` lines 116-128): walk the
glob results in enumeration order; skip paths whose lowercased text contains
a temporary-artifact marker; return the first path with an allow-listed
extension and a strictly positive size. -/
def find_existing_asset (output_dir stem : String) : FS → Option String
  | [] => none
  | e :: rest =>
    if globMatch output_dir stem e.path then
      if tempMarked e.path then find_existing_asset output_dir stem rest
      else if validFinal e.path && decide (0 < e.size) then some e.path
      else find_existing_asset output_dir stem rest
    else find_existing_asset output_dir stem rest

/-- The qualification test applied to a glob-matched entry: not
temporary-marked, allow-listed final extension, non-zero size. -/
def qualifies (e : FileEntry) : Bool :=
  !(tempMarked e.path) && (validFinal e.path && decide (0 < e.size))

/-- Lexicographic (code-point) strict order on strings: the order the spec
names when it says "lexical path order".  This definition follows the
spec's words, for comparison with the enumeration-order behaviour of
`find_existing_asset`. -/
def specLexLtChars : List Char → List Char → Bool
  | [], [] => false
  | [], _ :: _ => true
  | _ :: _, [] => false
  | a :: as, b :: bs =>
    if a.val < b.val then true
    else if b.val < a.val then false
    else specLexLtChars as bs

/-- Lexical order on paths, following the spec's words. -/
def specLexLt (a b : String) : Bool :=
  specLexLtChars a.data b.data

/-! ### Format Negotiator -/

/-- One post-processor dictionary of a yt-dlp options dict
(e.g. key `FFmpegVideoRemuxer` with argument `preferedformat = mp4`). -/
structure PP where
  key : String
  args : List (String × String)
deriving DecidableEq, Repr

/-- `retry_sleep_functions["http"]` in `build_ydl_opts`: `min(5 * n, 30)`. -/
def retry_sleep_http_fn (n : Nat) : Nat := min (5 * n) 30

/-- `retry_sleep_functions["fragment"]` in `build_ydl_opts`: `min(2 * n, 10)`. -/
def retry_sleep_fragment_fn (n : Nat) : Nat := min (2 * n) 10

/-- `retry_sleep_functions["extractor"]` in `build_ydl_opts`: `min(2 * n, 10)`. -/
def retry_sleep_extractor_fn (n : Nat) : Nat := min (2 * n) 10

/-- The fields of the yt-dlp options dict built by `build_ydl_opts`
(`descarga_de_videos.py` lines 47-113) that the orchestration layer decides
(cookie passthrough is opaque credential material and is not modelled). -/
structure YdlOpts where
  format : String
  noplaylist : Bool
  ignoreerrors : Bool
  retries : Nat
  fragment_retries : Nat
  concurrent_fragment_downloads : Nat
  outtmpl : String
  postprocessors : List PP
  merge_output_format : Option String
  retry_sleep_http : Nat → Nat
  retry_sleep_fragment : Nat → Nat
  retry_sleep_extractor : Nat → Nat

/-- `build_ydl_opts` (`descarga_de_videos.py` lines 47-113).  The
environment probe `ffmpeg_available()` is passed in as `have_ffmpeg`. -/
def build_ydl_opts (output_dir filename_no_ext : String)
    (want_max_quality_mp4 have_ffmpeg : Bool) : YdlOpts :=
  let fmt := if want_max_quality_mp4 && have_ffmpeg then "bestvideo*+bestaudio/best" else "best"
  let postprocessors : List PP :=
    if want_max_quality_mp4 && have_ffmpeg then
      [⟨"FFmpegVideoRemuxer", [("preferedformat", "mp4")]⟩,
       ⟨"FFmpegVideoConvertor", [("preferedformat", "mp4")]⟩]
    else []
  let merge_out : Option String :=
    if want_max_quality_mp4 && have_ffmpeg then some "mp4" else none
  { format := fmt
    noplaylist := true
    ignoreerrors := false
    retries := 10
    fragment_retries := 10
    concurrent_fragment_downloads := 4
    outtmpl := output_dir ++ "/" ++ filename_no_ext ++ ".%(ext)s"
    postprocessors := postprocessors
    merge_output_format := merge_out
    retry_sleep_http := retry_sleep_http_fn
    retry_sleep_fragment := retry_sleep_fragment_fn
    retry_sleep_extractor := retry_sleep_extractor_fn }

/-- The fields of the yt-dlp options dict built inside
`download_single_video` (`download.py` lines 134-201).  Note that this
negotiation has no muxer-capability input at all: `download.py` never
probes for ffmpeg. -/
structure DlOpts where
  format : String
  ignoreerrors : Bool
  postprocessors : List PP
  retries : Nat
  fragment_retries : Nat
  noplaylist : Bool
  merge_output_format : Option String
  outtmpl : String
deriving DecidableEq, Repr

/-- Options negotiation of `download_single_video` (`download.py`
lines 134-201), for the given mode flag and playlist detection. -/
def download_video_opts (audio_only : Bool) (output_path : String)
    (is_playlist : Bool) : DlOpts :=
  let format_selector :=
    if audio_only then "bestaudio/best"
    else "bestvideo[height<=1080]+bestaudio/best[height<=1080]/best"
  let file_extension := if audio_only then "mp3" else "mp4"
  let postprocessors : List PP :=
    if audio_only then
      [⟨"FFmpegExtractAudio", [("preferredcodec", "mp3"), ("preferredquality", "192")]⟩]
    else
      [⟨"FFmpegVideoConvertor", [("preferedformat", "mp4")]⟩]
  { format := format_selector
    ignoreerrors := true
    postprocessors := postprocessors
    retries := 3
    fragment_retries := 3
    noplaylist := false
    merge_output_format := if audio_only then none else some "mp4"
    outtmpl :=
      if is_playlist then
        output_path ++ "/%(playlist_title)s/%(playlist_index)s-%(title)s." ++ file_extension
      else
        output_path ++ "/%(title)s." ++ file_extension }

/-! ### URL Classifier (`get_url_info`, `download.py`) -/

/-- Hex digit value, as used by percent-decoding in `urllib.parse.unquote`. -/
def hexVal? (c : Char) : Option Nat :=
  let n := c.toNat
  if 48 ≤ n && n ≤ 57 then some (n - 48)
  else if 97 ≤ n && n ≤ 102 then some (n - 87)
  else if 65 ≤ n && n ≤ 70 then some (n - 55)
  else none

/-- Percent-decoding of `urllib.parse.unquote`: a `%` followed by two hex
digits becomes the coded character; an ill-formed `%` is kept as is.
(Multi-byte UTF-8 sequences decode to one char per byte here; the only
name this development compares against, `list`, is ASCII.) -/
def pctDecode : List Char → List Char
  | [] => []
  | c :: h1 :: h2 :: rest2 =>
    if c == '%' then
      match hexVal? h1, hexVal? h2 with
      | some v1, some v2 => Char.ofNat (16 * v1 + v2) :: pctDecode rest2
      | _, _ => c :: pctDecode (h1 :: h2 :: rest2)
    else c :: pctDecode (h1 :: h2 :: rest2)
  | c :: rest => c :: pctDecode rest

/-- `urllib.parse.unquote_plus`: `+` becomes a space, then percent-decode. -/
def unquote_plus (s : String) : String :=
  ⟨pctDecode (s.data.map (fun c => if c == '+' then ' ' else c))⟩

/-- The query component of a URL per `urllib.parse.urlsplit`: the fragment
(everything from the first `#`) is cut off first, then the query is
everything after the first `?` of what remains. -/
def url_query (url : String) : String :=
  let noFrag := url.data.takeWhile (fun c => !(c == '#'))
  match noFrag.dropWhile (fun c => !(c == '?')) with
  | [] => ""
  | _ :: t => ⟨t⟩

/-- Name and raw value of one `name=value` chunk, per
`urllib.parse.parse_qsl`: the name is everything before the first `=`;
a chunk without `=` is a name with an empty value. -/
def chunk_name_value (chunk : String) : String × String :=
  let cs := chunk.data
  let name := cs.takeWhile (fun c => !(c == '='))
  if name.length == cs.length then (chunk, "")
  else (⟨name⟩, ⟨cs.drop (name.length + 1)⟩)

/-- `'list' in urllib.parse.parse_qs(query)`: split the query on `&`;
a chunk counts only when non-empty and with a non-empty raw value
(`parse_qs` drops blank values by default); its decoded name must be
`list`. -/
def query_has_list_param (query : String) : Bool :=
  (query.splitOn "&").any fun chunk =>
    if chunk == "" then false
    else
      let nv := chunk_name_value chunk
      !(nv.2 == "") && unquote_plus nv.1 == "list"

/-- The fallback classification of `get_url_info` (`download.py`
lines 38-42 and 48-52): parse the URL's query string and test for the
`list` parameter. -/
def has_list_param (url : String) : Bool :=
  query_has_list_param (url_query url)

/-- The metadata dictionary returned by the engine's flat extraction,
reduced to the single field `get_url_info` reads: `_type`. -/
structure Info where
  typ : Option String
deriving DecidableEq, Repr

/-- The empty dict `{}` returned on the fallback path. -/
def Info.empty : Info := ⟨none⟩

/-- Outcome of the primary inspection
(`ydl.extract_info(url, download=False)` under flat extraction): a usable
info dict, `None`, or a raised exception. -/
inductive Primary where
  | ok (info : Info)
  | noInfo
  | raise (msg : String)
deriving DecidableEq, Repr

/-- Body of `get_url_info` (`download.py` lines 11-52), uncached: on a
usable info dict the discriminator is `_type == 'playlist'`; when the
inspection returns `None` or raises anything, the result degrades to the
query-string fallback and an empty dict — the function itself never
raises. -/
def get_url_info_body (primary : Primary) (url : String) : Bool × Info :=
  match primary with
  | .ok info => (info.typ == some "playlist", info)
  | .noInfo => (has_list_param url, Info.empty)
  | .raise _ => (has_list_param url, Info.empty)

/-- The uncached classification function for a fixed engine behaviour
`primaryOf` (what the inspection of each URL would yield). -/
def get_url_info_uncached (primaryOf : String → Primary) (url : String) : Bool × Info :=
  get_url_info_body (primaryOf url) url

/-! ### The `functools.lru_cache(maxsize=128)` wrapper -/

/-- The cache state of `lru_cache`: entries keyed by the exact argument
string, most recently used first. -/
structure Cache (V : Type) where
  entries : List (String × V)

/-- The empty cache a process starts with. -/
def Cache.empty (V : Type) : Cache V := ⟨[]⟩

/-- Result of one call through the cache: the returned value, the new
cache state, and whether the wrapped function was (re-)executed. -/
structure CallRes (V : Type) where
  value : V
  cache : Cache V
  recomputed : Bool

/-- One call through `lru_cache(maxsize=128)`: a hit returns the stored
value and moves its entry to the most-recent position; a miss runs the
wrapped function, stores the result at the most-recent position and, when
the cache would exceed 128 entries, discards the least recently used one. -/
def lru_call (f : String → V) (c : Cache V) (k : String) : CallRes V :=
  match c.entries.find? (fun e => e.1 == k) with
  | some e => ⟨e.2, ⟨e :: c.entries.eraseP (fun x => x.1 == k)⟩, false⟩
  | none =>
    let v := f k
    let es := (k, v) :: c.entries
    ⟨v, ⟨if 128 < es.length then es.dropLast else es⟩, true⟩

/-- The cache state after a sequence of calls. -/
def lru_run (f : String → V) (c : Cache V) (ks : List String) : Cache V :=
  ks.foldl (fun c k => (lru_call f c k).cache) c

/-- The process-lifetime classification state after classifying `urls` in
order through the memoized `get_url_info`. -/
def classify_run (primaryOf : String → Primary) (urls : List String) : Cache (Bool × Info) :=
  lru_run (get_url_info_uncached primaryOf) (Cache.empty _) urls

/-- Number of distinct strings in a list (how many cache keys a call
sequence creates). -/
def numDistinct (l : List String) : Nat := l.toFinset.card

/-! ### Acquisition Task (`download_one`, `descarga_de_videos.py`) -/

/-- `os.path.exists` over the modelled directory listing. -/
def path_exists (fs : FS) (p : String) : Bool :=
  fs.any (fun e => e.path == p)

/-- `filesize` (`descarga_de_videos.py` lines 145-149): the size of the
file at `p`, or `None` when no such file exists. -/
def filesize (fs : FS) (p : String) : Option Nat :=
  (fs.find? (fun e => e.path == p)).map (fun e => e.size)

/-- `ensure_mp4_final_path` (`descarga_de_videos.py` lines 131-142): keep
the path if it exists on disk; otherwise re-probe its directory for any
valid final container with the same stem, falling back to the path
itself. -/
def ensure_mp4_final_path (fs : FS) (path : String) : String :=
  if path_exists fs path then path
  else
    let folder := if (dirNameChars path.data).isEmpty then "." else ⟨dirNameChars path.data⟩
    let stem : String := ⟨stemOfBase (baseNameChars path.data)⟩
    (find_existing_asset folder stem fs).getD path

/-- Outcome of `ydl.extract_info(url, download=False)` inside
`download_one`: a usable info object, `None`, or a raised exception. -/
inductive ExtractResult where
  | ok
  | noInfo
  | raise (msg : String)
deriving DecidableEq, Repr

/-- Outcome of `ydl.download([url])`: the directory listing after a
completed transfer (including post-processing), or a raised exception. -/
inductive FetchResult where
  | ok (fs : FS)
  | raise (msg : String)
deriving DecidableEq, Repr

/-- Behaviour of the external media-fetch engine for one task's two
sub-calls. -/
structure Engine where
  extract : ExtractResult
  fetch : FetchResult
deriving DecidableEq, Repr

/-- The `(status, message, final_path, size_bytes)` tuple `download_one`
returns. -/
structure Outcome where
  status : String
  message : String
  final_path : Option String
  size_bytes : Option Nat
deriving DecidableEq, Repr

/-- One task execution: its outcome, the directory listing it leaves
behind, and which engine sub-calls were made. -/
structure TaskRun where
  outcome : Outcome
  fs : FS
  extract_called : Bool
  download_called : Bool
deriving DecidableEq, Repr

/-- `download_one` (`descarga_de_videos.py` lines 152-187): probe for an
existing final asset and skip; otherwise extract metadata (error out on
`None`), transfer, and verify the final artifact on disk.  Exceptions
from either engine sub-call are caught here and become ERROR outcomes. -/
def download_one (url output_dir final_stem : String) (fs : FS) (eng : Engine) : TaskRun :=
  let desired_mp4 := output_dir ++ "/" ++ final_stem ++ ".mp4"
  match find_existing_asset output_dir final_stem fs with
  | some existing =>
    { outcome := ⟨"SKIPPED", "⏭️ Ya existe: " ++ existing, some existing, filesize fs existing⟩
      fs := fs, extract_called := false, download_called := false }
  | none =>
    match eng.extract with
    | .raise e =>
      { outcome := ⟨"ERROR", "❌ Error descargando " ++ url ++ ": " ++ e, none, none⟩
        fs := fs, extract_called := true, download_called := false }
    | .noInfo =>
      { outcome := ⟨"ERROR", "❌ No se pudo extraer info: " ++ url, none, none⟩
        fs := fs, extract_called := true, download_called := false }
    | .ok =>
      match eng.fetch with
      | .raise e =>
        { outcome := ⟨"ERROR", "❌ Error descargando " ++ url ++ ": " ++ e, none, none⟩
          fs := fs, extract_called := true, download_called := true }
      | .ok fs' =>
        let final_path := ensure_mp4_final_path fs' desired_mp4
        if path_exists fs' final_path && !((filesize fs' final_path).getD 0 == 0) then
          if listStartsWith ".mp4".data.reverse (lowerStr final_path).data.reverse then
            { outcome := ⟨"OK", "✅ OK: " ++ final_path, some final_path, filesize fs' final_path⟩
              fs := fs', extract_called := true, download_called := true }
          else
            { outcome := ⟨"OK", "✅ OK (no MP4 por falta de ffmpeg): " ++ final_path,
                          some final_path, filesize fs' final_path⟩
              fs := fs', extract_called := true, download_called := true }
        else
          { outcome := ⟨"ERROR",
              "⚠️ Descargado pero no se encontró archivo final. Revisar ffmpeg/post-procesado.",
              none, none⟩
            fs := fs', extract_called := true, download_called := true }

/-! ### Fetch phase of `download_single_video` (`download.py`) -/

/-- What the fresh (non-flat) extraction yields in `download_single_video`:
a single video, or a playlist with a title and an entry count. -/
inductive DlInfo where
  | video
  | playlist (title : String) (entries : Nat)
deriving DecidableEq, Repr

/-- Outcome of `ydl.extract_info` in `download_single_video`. -/
inductive DlExtract where
  | got (i : DlInfo)
  | noInfo
  | raise (msg : String)
deriving DecidableEq, Repr

/-- Outcome of `ydl.download` in `download_single_video`. -/
inductive DlFetch where
  | ok
  | raise (msg : String)
deriving DecidableEq, Repr

/-- Engine behaviour for one `download_single_video` call. -/
structure DlEngine where
  extract : DlExtract
  fetch : DlFetch
deriving DecidableEq, Repr

/-- The result dict of `download_single_video` together with whether the
transfer sub-call was made. -/
structure DlRun where
  success : Bool
  message : String
  download_called : Bool
deriving DecidableEq, Repr

/-- The try/except fetch phase of `download_single_video` (`download.py`
lines 203-251): `None` info, an empty playlist, or any raised engine
exception each become a failure result; nothing propagates. -/
def download_single_video_fetch (thread_id : Nat) (audio_only : Bool)
    (eng : DlEngine) : DlRun :=
  match eng.extract with
  | .raise e =>
    ⟨false, "❌ [Thread " ++ toString thread_id ++ "] Error: " ++ e, false⟩
  | .noInfo =>
    ⟨false, "❌ [Thread " ++ toString thread_id ++
      "] Failed to extract video information. Video may be private or unavailable.", false⟩
  | .got (.playlist title n) =>
    if n == 0 then
      ⟨false, "❌ [Thread " ++ toString thread_id ++ "] Playlist appears to be empty or private",
        false⟩
    else
      match eng.fetch with
      | .raise e => ⟨false, "❌ [Thread " ++ toString thread_id ++ "] Error: " ++ e, true⟩
      | .ok =>
        ⟨true, "✅ [Thread " ++ toString thread_id ++ "] Playlist '" ++ title ++
          "' download completed! (" ++ toString n ++ " " ++
          (if audio_only then "MP3s" else "videos") ++ ")", true⟩
  | .got .video =>
    match eng.fetch with
    | .raise e => ⟨false, "❌ [Thread " ++ toString thread_id ++ "] Error: " ++ e, true⟩
    | .ok =>
      ⟨true, "✅ [Thread " ++ toString thread_id ++ "] " ++
        (if audio_only then "Audio" else "Video") ++ " download completed successfully!", true⟩

/-! ### End-of-run summary (`main`, `descarga_de_videos.py` lines 247-297) -/

/-- The two totals `main` prints at the end of a batch run, computed from
the per-row statuses: `ok_count` accumulates `int(status == "OK")` and
`fail_count` is `len(df) - ok_count`. -/
def main_summary (statuses : List String) : Nat × Nat :=
  let ok := (statuses.filter (fun s => s == "OK")).length
  (ok, statuses.length - ok)

/-! ## Claim C1 — degradation when the muxer is unavailable -/

/-- C1 counterexample: the negotiation of `download_single_video`
(`download.py`) never consults muxer capability, so in an environment
without ffmpeg its video-mode policy still requests a separate
video+audio combination (`+` in the selector), carries a non-empty
post-processing pipeline, and sets the `mp4` merge hint — all three parts
of the claim fail on it. -/
theorem c1_counterexample :
    (download_video_opts false "downloads" false).format.data.contains '+' = true
    ∧ (download_video_opts false "downloads" false).postprocessors
        = [⟨"FFmpegVideoConvertor", [("preferedformat", "mp4")]⟩]
    ∧ (download_video_opts false "downloads" false).merge_output_format = some "mp4" := by
  refine ⟨by decide, rfl, rfl⟩

/-- C1 amended: the `build_ydl_opts` negotiator (`descarga_de_videos.py`)
does degrade correctly — with no ffmpeg it requests only the single `best`
pre-combined stream (no `+` combination), an empty pipeline and no merge
hint, whatever the quality flag; but the `download_single_video`
negotiator ignores muxer capability and, in video mode, always requests a
separate video+audio combination with a convert pipeline and an `mp4`
merge hint. -/
theorem c1_degradation_amended (output_dir filename_no_ext output_path : String)
    (want_max_quality_mp4 is_playlist : Bool) :
    ((build_ydl_opts output_dir filename_no_ext want_max_quality_mp4 false).format = "best"
      ∧ (build_ydl_opts output_dir filename_no_ext want_max_quality_mp4 false).format.data.contains '+'
          = false
      ∧ (build_ydl_opts output_dir filename_no_ext want_max_quality_mp4 false).postprocessors = []
      ∧ (build_ydl_opts output_dir filename_no_ext want_max_quality_mp4 false).merge_output_format
          = none)
    ∧ ((download_video_opts false output_path is_playlist).format.data.contains '+' = true
      ∧ (download_video_opts false output_path is_playlist).postprocessors ≠ []
      ∧ (download_video_opts false output_path is_playlist).merge_output_format = some "mp4") := by
  refine ⟨⟨?_, ?_, ?_, ?_⟩, ?_, ?_, ?_⟩ <;>
    simp [build_ydl_opts, download_video_opts]

/-! ## Claim C3 — end-of-run summary totals -/

/-- Under the three legal statuses, the per-status counts add up to the
row count. -/
theorem count_three_statuses (sts : List String)
    (h : ∀ s ∈ sts, s = "OK" ∨ s = "ERROR" ∨ s = "SKIPPED") :
    sts.count "OK" + sts.count "ERROR" + sts.count "SKIPPED" = sts.length := by
  induction sts with
  | nil => rfl
  | cons a t ih =>
    have ha := h a (List.mem_cons_self a t)
    have iht := ih (fun s hs => h s (List.mem_cons_of_mem a hs))
    rcases ha with h1 | h1 | h1 <;> subst h1 <;>
      simp [List.count_cons, List.length_cons] <;> omega

/-- C3 counterexample: a run whose single item was SKIPPED and a run whose
single item was ERROR print identical summaries `(0, 1)` — the summary has
only two totals and the SKIPPED item is folded into the failure tally, so
no separate SKIPPED total is reported. -/
theorem c3_counterexample :
    main_summary ["SKIPPED"] = (0, 1) ∧ main_summary ["ERROR"] = (0, 1) := by
  exact ⟨rfl, rfl⟩

/-- C3 amended: the end-of-run summary prints exactly two totals: `Éxitos`
counts only OK rows, and `Fallos` is the row count minus OK, i.e. ERROR
and SKIPPED folded together; SKIPPED is not reported separately from
ERROR (the three statuses are distinguished only per row in the report
file). -/
theorem c3_summary_amended (sts : List String)
    (h : ∀ s ∈ sts, s = "OK" ∨ s = "ERROR" ∨ s = "SKIPPED") :
    main_summary sts = (sts.count "OK", sts.count "ERROR" + sts.count "SKIPPED") := by
  have hsum := count_three_statuses sts h
  have hfst : (sts.filter (fun s => s == "OK")).length = sts.count "OK" := by
    rw [List.count_eq_countP, List.countP_eq_length_filter]
  simp only [main_summary]
  refine Prod.ext ?_ ?_
  · exact hfst
  · simp only []
    omega

/-- C3 witness: the amended summary equation at the concrete run
`[OK, SKIPPED, ERROR]`: `Éxitos = 1`, `Fallos = 2`. -/
theorem c3_summary_amended_witness :
    main_summary ["OK", "SKIPPED", "ERROR"]
      = (["OK", "SKIPPED", "ERROR"].count "OK",
         ["OK", "SKIPPED", "ERROR"].count "ERROR" + ["OK", "SKIPPED", "ERROR"].count "SKIPPED") :=
  c3_summary_amended ["OK", "SKIPPED", "ERROR"] (by decide)

/-! ## Claim C5 — classification never raises; fallback semantics -/

/-- C5: whenever the primary inspection fails — it returns no info
(`None`) or raises any exception — `get_url_info` returns the fallback
result: `is_collection` is exactly the presence of a non-blank `list`
parameter in the URL's query string, the info dict is empty, and no
exception crosses the boundary (the body is a total function over every
primary outcome, including raising ones). -/
theorem c5_classifier_fallback (url msg : String) :
    get_url_info_body Primary.noInfo url = (has_list_param url, Info.empty)
    ∧ get_url_info_body (Primary.raise msg) url = (has_list_param url, Info.empty) :=
  ⟨rfl, rfl⟩

/-! ## Claim C9 — retry backoff functions -/

/-- C9 counterexample: the stream-fragment and extractor backoff functions
of `build_ydl_opts` are one and the same function `min(2n, 10)`, so the
three error classes do not have pairwise distinct retry/backoff ceilings:
fragment and extractor share the ceiling 10 (only http differs, at 30). -/
theorem c9_counterexample :
    retry_sleep_fragment_fn = retry_sleep_extractor_fn
    ∧ retry_sleep_fragment_fn 100 = 10
    ∧ retry_sleep_extractor_fn 100 = 10
    ∧ retry_sleep_http_fn 100 = 30 := by
  exact ⟨rfl, by decide, by decide, by decide⟩

/-- C9 amended: each backoff function is monotonically increasing in the
attempt number and capped at a fixed ceiling which it reaches (http at 30,
fragment and extractor both at 10); the http ceiling differs from the
fragment/extractor ceiling, but fragment and extractor share theirs, so
the three classes are not pairwise distinct. -/
theorem c9_backoff_amended (m n : Nat) (h : m ≤ n) :
    (retry_sleep_http_fn m ≤ retry_sleep_http_fn n
      ∧ retry_sleep_fragment_fn m ≤ retry_sleep_fragment_fn n
      ∧ retry_sleep_extractor_fn m ≤ retry_sleep_extractor_fn n)
    ∧ (retry_sleep_http_fn n ≤ 30
      ∧ retry_sleep_fragment_fn n ≤ 10
      ∧ retry_sleep_extractor_fn n ≤ 10)
    ∧ (retry_sleep_http_fn (n + 6) = 30
      ∧ retry_sleep_fragment_fn (n + 5) = 10
      ∧ retry_sleep_extractor_fn (n + 5) = 10)
    ∧ retry_sleep_http_fn (n + 6) ≠ retry_sleep_fragment_fn (n + 5)
    ∧ retry_sleep_fragment_fn (n + 5) = retry_sleep_extractor_fn (n + 5) := by
  refine ⟨⟨?_, ?_, ?_⟩, ⟨?_, ?_, ?_⟩, ⟨?_, ?_, ?_⟩, ?_, ?_⟩ <;>
    simp only [retry_sleep_http_fn, retry_sleep_fragment_fn, retry_sleep_extractor_fn] <;> omega

/-- C9 witness: the amended backoff properties at the concrete attempts
`m = 2`, `n = 7`. -/
theorem c9_backoff_amended_witness :
    2 ≤ 7
    ∧ ((retry_sleep_http_fn 2 ≤ retry_sleep_http_fn 7
        ∧ retry_sleep_fragment_fn 2 ≤ retry_sleep_fragment_fn 7
        ∧ retry_sleep_extractor_fn 2 ≤ retry_sleep_extractor_fn 7)
      ∧ (retry_sleep_http_fn 7 ≤ 30
        ∧ retry_sleep_fragment_fn 7 ≤ 10
        ∧ retry_sleep_extractor_fn 7 ≤ 10)
      ∧ (retry_sleep_http_fn (7 + 6) = 30
        ∧ retry_sleep_fragment_fn (7 + 5) = 10
        ∧ retry_sleep_extractor_fn (7 + 5) = 10)
      ∧ retry_sleep_http_fn (7 + 6) ≠ retry_sleep_fragment_fn (7 + 5)
      ∧ retry_sleep_fragment_fn (7 + 5) = retry_sleep_extractor_fn (7 + 5)) :=
  ⟨by decide, c9_backoff_amended 2 7 (by decide)⟩

/-! ## Claim C6 — skip fast-path makes no engine call -/

/-- C6: when the probe finds an existing final asset for the item's
logical id, `download_one` returns SKIPPED carrying that path and its
size, leaves the directory listing untouched, and makes neither engine
sub-call (no metadata extraction, no transfer). -/
theorem c6_skip_fast_path (url output_dir final_stem : String) (fs : FS) (eng : Engine)
    (p : String) (h : find_existing_asset output_dir final_stem fs = some p) :
    download_one url output_dir final_stem fs eng =
      { outcome := ⟨"SKIPPED", "⏭️ Ya existe: " ++ p, some p, filesize fs p⟩
        fs := fs, extract_called := false, download_called := false } := by
  simp [download_one, h]

/-- C6 witness: Scenario B — the directory already holds a non-empty
`p1.mp4`, and the task for `p1` is SKIPPED with no engine call. -/
theorem c6_skip_fast_path_witness :
    find_existing_asset "out" "p1" [⟨"out/p1.mp4", 7⟩] = some "out/p1.mp4"
    ∧ download_one "u" "out" "p1" [⟨"out/p1.mp4", 7⟩] ⟨.noInfo, .raise "x"⟩ =
      { outcome := ⟨"SKIPPED", "⏭️ Ya existe: " ++ "out/p1.mp4", some "out/p1.mp4",
                    filesize [⟨"out/p1.mp4", 7⟩] "out/p1.mp4"⟩
        fs := [⟨"out/p1.mp4", 7⟩], extract_called := false, download_called := false } :=
  ⟨by decide, c6_skip_fast_path "u" "out" "p1" [⟨"out/p1.mp4", 7⟩] ⟨.noInfo, .raise "x"⟩
    "out/p1.mp4" (by decide)⟩

/-! ## Claim C7 — fetching never propagates an exception -/

/-- C7: for an item entering fetching (probe missed), neither task body
lets an engine failure escape: `download_one` returns ERROR without
attempting the transfer when metadata extraction yields nothing, and
converts a raised extraction or transfer exception into an ERROR outcome
with the engine's message attached; `download_single_video` does the same
for its result dict.  (Both bodies are total functions of the engine
behaviour — nothing propagates.) -/
theorem c7_fetch_error_boundary (url output_dir final_stem : String) (fs : FS)
    (thread_id : Nat) (audio_only : Bool) (m : String)
    (fetch : FetchResult) (fetch' : DlFetch)
    (h : find_existing_asset output_dir final_stem fs = none) :
    ((download_one url output_dir final_stem fs ⟨ExtractResult.noInfo, fetch⟩).outcome.status
        = "ERROR"
      ∧ (download_one url output_dir final_stem fs ⟨ExtractResult.noInfo, fetch⟩).download_called
        = false)
    ∧ ((download_one url output_dir final_stem fs ⟨ExtractResult.raise m, fetch⟩).outcome
        = ⟨"ERROR", "❌ Error descargando " ++ url ++ ": " ++ m, none, none⟩
      ∧ (download_one url output_dir final_stem fs ⟨ExtractResult.raise m, fetch⟩).download_called
        = false)
    ∧ (download_one url output_dir final_stem fs ⟨ExtractResult.ok, FetchResult.raise m⟩).outcome
        = ⟨"ERROR", "❌ Error descargando " ++ url ++ ": " ++ m, none, none⟩
    ∧ ((download_single_video_fetch thread_id audio_only ⟨DlExtract.noInfo, fetch'⟩).success
        = false
      ∧ (download_single_video_fetch thread_id audio_only
          ⟨DlExtract.noInfo, fetch'⟩).download_called = false)
    ∧ download_single_video_fetch thread_id audio_only ⟨DlExtract.raise m, fetch'⟩
        = ⟨false, "❌ [Thread " ++ toString thread_id ++ "] Error: " ++ m, false⟩
    ∧ download_single_video_fetch thread_id audio_only ⟨DlExtract.got DlInfo.video, DlFetch.raise m⟩
        = ⟨false, "❌ [Thread " ++ toString thread_id ++ "] Error: " ++ m, true⟩ := by
  refine ⟨⟨?_, ?_⟩, ⟨?_, ?_⟩, ?_, ⟨?_, ?_⟩, ?_, ?_⟩ <;>
    simp [download_one, download_single_video_fetch, h]

/-- C7 witness: the fetch-phase error conversions at concrete inputs —
empty output directory (probe misses), engine message `boom`. -/
theorem c7_fetch_error_boundary_witness :
    find_existing_asset "out" "p1" [] = none
    ∧ (((download_one "u" "out" "p1" [] ⟨ExtractResult.noInfo, FetchResult.ok []⟩).outcome.status
        = "ERROR"
      ∧ (download_one "u" "out" "p1" [] ⟨ExtractResult.noInfo, FetchResult.ok []⟩).download_called
        = false)
    ∧ ((download_one "u" "out" "p1" [] ⟨ExtractResult.raise "boom", FetchResult.ok []⟩).outcome
        = ⟨"ERROR", "❌ Error descargando " ++ "u" ++ ": " ++ "boom", none, none⟩
      ∧ (download_one "u" "out" "p1" []
          ⟨ExtractResult.raise "boom", FetchResult.ok []⟩).download_called = false)
    ∧ (download_one "u" "out" "p1" [] ⟨ExtractResult.ok, FetchResult.raise "boom"⟩).outcome
        = ⟨"ERROR", "❌ Error descargando " ++ "u" ++ ": " ++ "boom", none, none⟩
    ∧ ((download_single_video_fetch 1 false ⟨DlExtract.noInfo, DlFetch.ok⟩).success = false
      ∧ (download_single_video_fetch 1 false ⟨DlExtract.noInfo, DlFetch.ok⟩).download_called
        = false)
    ∧ download_single_video_fetch 1 false ⟨DlExtract.raise "boom", DlFetch.ok⟩
        = ⟨false, "❌ [Thread " ++ toString 1 ++ "] Error: " ++ "boom", false⟩
    ∧ download_single_video_fetch 1 false ⟨DlExtract.got DlInfo.video, DlFetch.raise "boom"⟩
        = ⟨false, "❌ [Thread " ++ toString 1 ++ "] Error: " ++ "boom", true⟩) :=
  ⟨rfl, c7_fetch_error_boundary "u" "out" "p1" [] 1 false "boom"
    (FetchResult.ok []) DlFetch.ok rfl⟩

/-! ## Claim C8 — the probe filters temp artifacts, extensions and sizes -/

/-- C8: any path the probe reports is free of temporary-artifact markers
(over the whole lowercased path), carries an allow-listed final container
extension, and belongs to a listed file of strictly positive size. -/
theorem c8_probe_filters (output_dir stem : String) (fs : FS) (p : String)
    (h : find_existing_asset output_dir stem fs = some p) :
    tempMarked p = false
    ∧ validFinal p = true
    ∧ ∃ e, e ∈ fs ∧ e.path = p ∧ 0 < e.size := by
  induction fs with
  | nil => simp [find_existing_asset] at h
  | cons e rest ih =>
    simp only [find_existing_asset] at h
    split_ifs at h with h1 h2 h3
    · obtain ⟨ha, hb, e', he', hp, hs⟩ := ih h
      exact ⟨ha, hb, e', List.mem_cons_of_mem e he', hp, hs⟩
    · have hp : e.path = p := by simpa using h
      obtain ⟨hv, hs⟩ := (Bool.and_eq_true _ _).mp h3
      subst hp
      exact ⟨(Bool.not_eq_true _).mp h2, hv, e, List.mem_cons_self e rest, rfl,
        of_decide_eq_true hs⟩
    · obtain ⟨ha, hb, e', he', hp, hs⟩ := ih h
      exact ⟨ha, hb, e', List.mem_cons_of_mem e he', hp, hs⟩
    · obtain ⟨ha, hb, e', he', hp, hs⟩ := ih h
      exact ⟨ha, hb, e', List.mem_cons_of_mem e he', hp, hs⟩

/-- C8 witness: at a directory holding a non-empty `p1.mp4`, the probe
returns it and all three filter properties hold of the returned path. -/
theorem c8_probe_filters_witness :
    find_existing_asset "out" "p1" [⟨"out/p1.mp4", 7⟩] = some "out/p1.mp4"
    ∧ (tempMarked "out/p1.mp4" = false
      ∧ validFinal "out/p1.mp4" = true
      ∧ ∃ e, e ∈ ([⟨"out/p1.mp4", 7⟩] : FS) ∧ e.path = "out/p1.mp4" ∧ 0 < e.size) :=
  ⟨by decide, c8_probe_filters "out" "p1" [⟨"out/p1.mp4", 7⟩] "out/p1.mp4" (by decide)⟩

/-! ## Claim C4 — which qualifying match the probe picks -/

/-- C4 counterexample: a directory whose enumeration lists `p1.webm`
before `p1.mp4` (both qualifying).  The probe returns `p1.webm`, yet
`p1.mp4` also qualifies and is lexically smaller — so the probe does not
pick the first qualifying match in lexical path order. -/
theorem c4_counterexample :
    find_existing_asset "out" "p1" [⟨"out/p1.webm", 5⟩, ⟨"out/p1.mp4", 5⟩]
      = some "out/p1.webm"
    ∧ globMatch "out" "p1" "out/p1.mp4" = true
    ∧ qualifies ⟨"out/p1.mp4", 5⟩ = true
    ∧ specLexLt "out/p1.mp4" "out/p1.webm" = true
    ∧ "out/p1.webm" ≠ "out/p1.mp4" := by
  refine ⟨by decide, by decide, by decide, by decide, by decide⟩

/-- C4 amended: the probe picks the first qualifying match in
directory-enumeration order (the order `glob.glob` yields, which is not
guaranteed lexical): it equals `find?` of the qualification test over the
glob-matched entries in listing order — hence two probes over the same
enumeration return the same path, but with no lexical guarantee. -/
theorem c4_probe_order_amended (output_dir stem : String) (fs : FS) :
    find_existing_asset output_dir stem fs
      = ((fs.filter (fun e => globMatch output_dir stem e.path)).find? qualifies).map
          (fun e => e.path) := by
  induction fs with
  | nil => rfl
  | cons e rest ih =>
    cases hg : globMatch output_dir stem e.path with
    | false => simp [find_existing_asset, List.filter_cons, hg, ih]
    | true =>
      cases htm : tempMarked e.path with
      | true =>
        have hq : qualifies e = false := by simp [qualifies, htm]
        simp [find_existing_asset, List.filter_cons, hg, htm, hq, ih]
      | false =>
        cases hv : (validFinal e.path && decide (0 < e.size)) with
        | true =>
          have hq : qualifies e = true := by simp [qualifies, htm, hv]
          simp [find_existing_asset, List.filter_cons, hg, htm, hv, hq]
        | false =>
          have hq : qualifies e = false := by simp [qualifies, htm, hv]
          simp [find_existing_asset, List.filter_cons, hg, htm, hv, hq, ih]

/-! ## Claim C10 — the temp filter tests the whole path -/

/-- A pattern-initial run extends to any longer list. -/
theorem listStartsWith_extend : ∀ (pre l r : List Char),
    listStartsWith pre l = true → listStartsWith pre (l ++ r) = true
  | [], _, _, _ => rfl
  | _ :: _, [], _, h => by simp [listStartsWith] at h
  | a :: as, b :: bs, r, h => by
    simp only [listStartsWith, Bool.and_eq_true] at h
    simp only [List.cons_append, listStartsWith, Bool.and_eq_true]
    exact ⟨h.1, listStartsWith_extend as bs r h.2⟩

/-- If a pattern is an initial run of a list, the list splits after it. -/
theorem exists_append_of_listStartsWith : ∀ (pre l : List Char),
    listStartsWith pre l = true → ∃ r, l = pre ++ r
  | [], l, _ => ⟨l, rfl⟩
  | _ :: _, [], h => by simp [listStartsWith] at h
  | a :: as, b :: bs, h => by
    simp only [listStartsWith, Bool.and_eq_true, beq_iff_eq] at h
    obtain ⟨r, hr⟩ := exists_append_of_listStartsWith as bs h.2
    exact ⟨r, by rw [hr, List.cons_append, h.1]⟩

/-- The empty needle occurs in every haystack. -/
theorem listHasRun_nil : ∀ (r : List Char), listHasRun [] r = true
  | [] => rfl
  | _ :: _ => rfl

/-- A substring occurrence survives appending on the right. -/
theorem listHasRun_extend (n : List Char) : ∀ (h r : List Char),
    listHasRun n h = true → listHasRun n (h ++ r) = true
  | [], r, hh => by
    have : n = [] := by simpa [listHasRun, List.isEmpty_iff] using hh
    subst this
    exact listHasRun_nil r
  | c :: t, r, hh => by
    simp only [listHasRun, Bool.or_eq_true] at hh
    simp only [List.cons_append, listHasRun, Bool.or_eq_true]
    rcases hh with hh | hh
    · exact Or.inl (by simpa [List.cons_append] using listStartsWith_extend n (c :: t) r hh)
    · exact Or.inr (listHasRun_extend n t r hh)

/-- A temp marker occurring in the lowercased output-directory text makes
every glob-matched path temp-marked, because the filter tests the whole
path string. -/
theorem tempMarked_of_dir_marker (t output_dir stem p : String)
    (ht : t ∈ TEMP_EXT_CONTAINS)
    (hsub : strHasSub t (lowerStr output_dir) = true)
    (hg : globMatch output_dir stem p = true) :
    tempMarked p = true := by
  have hg2 := hg
  simp only [globMatch, Bool.and_eq_true] at hg2
  have hpre : listStartsWith (output_dir ++ "/" ++ stem ++ ".").data p.data = true := hg2.1
  obtain ⟨r, hr⟩ := exists_append_of_listStartsWith _ _ hpre
  have hdata : p.data = output_dir.data ++ (("/" ++ stem ++ ".").data ++ r) := by
    rw [hr]
    simp [String.data_append]
  have hlow : (lowerStr p).data
      = (lowerStr output_dir).data ++ ((("/" ++ stem ++ ".").data ++ r).map Char.toLower) := by
    simp only [lowerStr, hdata, List.map_append]
  have hrun : listHasRun t.data (lowerStr p).data = true := by
    rw [hlow]
    exact listHasRun_extend t.data _ _ hsub
  exact List.any_eq_true.mpr ⟨t, ht, hrun⟩

/-- With a marker in the directory text, the probe never returns an
asset, whatever the listing holds. -/
theorem find_existing_asset_dir_marker (t output_dir stem : String) (fs : FS)
    (ht : t ∈ TEMP_EXT_CONTAINS)
    (hsub : strHasSub t (lowerStr output_dir) = true) :
    find_existing_asset output_dir stem fs = none := by
  induction fs with
  | nil => rfl
  | cons e rest ih =>
    by_cases hg : globMatch output_dir stem e.path
    · have := tempMarked_of_dir_marker t output_dir stem e.path ht hsub hg
      simp [find_existing_asset, hg, this, ih]
    · simp [find_existing_asset, hg, ih]

/-- When the probe misses, no branch of `download_one` yields SKIPPED. -/
theorem download_one_not_skipped (url output_dir final_stem : String) (fs : FS) (eng : Engine)
    (h : find_existing_asset output_dir final_stem fs = none) :
    (download_one url output_dir final_stem fs eng).outcome.status ≠ "SKIPPED" := by
  obtain ⟨ext, ftch⟩ := eng
  cases ext with
  | raise m => simp [download_one, h]
  | noInfo => simp [download_one, h]
  | ok =>
    cases ftch with
    | raise m => simp [download_one, h]
    | ok fs' =>
      simp only [download_one, h]
      split_ifs <;> simp

/-- C10: the temporary-artifact filter matches markers against the whole
lowercased path, so when the output directory's own text contains a
marker (here any `t` of `TEMP_EXT_CONTAINS`), the probe reports no
existing asset for any logical id and listing — even one holding a valid
non-empty final file — and therefore the skip fast-path never triggers. -/
theorem c10_dir_marker_probe (url output_dir stem : String) (fs : FS) (eng : Engine)
    (t : String) (ht : t ∈ TEMP_EXT_CONTAINS)
    (hsub : strHasSub t (lowerStr output_dir) = true) :
    find_existing_asset output_dir stem fs = none
    ∧ (download_one url output_dir stem fs eng).outcome.status ≠ "SKIPPED" := by
  have hnone := find_existing_asset_dir_marker t output_dir stem fs ht hsub
  exact ⟨hnone, download_one_not_skipped url output_dir stem fs eng hnone⟩

/-- C10 witness: directory `out.tmp` contains the marker `.tmp`; despite
a valid non-empty `p1.mp4` inside it, the probe returns nothing and the
task does not skip. -/
theorem c10_dir_marker_probe_witness :
    (".tmp" ∈ TEMP_EXT_CONTAINS ∧ strHasSub ".tmp" (lowerStr "out.tmp") = true)
    ∧ (find_existing_asset "out.tmp" "p1" [⟨"out.tmp/p1.mp4", 5⟩] = none
      ∧ (download_one "u" "out.tmp" "p1" [⟨"out.tmp/p1.mp4", 5⟩]
          ⟨.noInfo, .raise "x"⟩).outcome.status ≠ "SKIPPED") :=
  ⟨⟨by decide, by decide⟩,
    c10_dir_marker_probe "u" "out.tmp" "p1" [⟨"out.tmp/p1.mp4", 5⟩] ⟨.noInfo, .raise "x"⟩
      ".tmp" (by decide) (by decide)⟩

/-! ## Claim C2 — memoization of URL classification -/

/-- Erasing by a test the `find?` predicate excludes leaves `find?`
unchanged. -/
theorem find?_eraseP_of_disjoint {α : Type} (p q : α → Bool)
    (hdis : ∀ x, p x = true → q x = false) :
    ∀ (l : List α), (l.eraseP q).find? p = l.find? p
  | [] => rfl
  | a :: t => by
    cases hqa : q a with
    | true =>
      rw [List.eraseP_cons_of_pos hqa]
      have hpa : p a = false := by
        cases hp : p a with
        | false => rfl
        | true => rw [hdis a hp] at hqa; cases hqa
      rw [List.find?_cons_of_neg t (by simp [hpa])]
    | false =>
      rw [List.eraseP_cons_of_neg (by simp [hqa])]
      cases hpa : p a with
      | true =>
        rw [List.find?_cons_of_pos _ hpa, List.find?_cons_of_pos _ hpa]
      | false =>
        rw [List.find?_cons_of_neg _ (by simp [hpa]), List.find?_cons_of_neg _ (by simp [hpa])]
        exact find?_eraseP_of_disjoint p q hdis t

/-- When `find?` succeeds, `eraseP` removes exactly one element. -/
theorem length_eraseP_of_found {α : Type} (p : α → Bool) :
    ∀ (l : List α) (e : α), l.find? p = some e → (l.eraseP p).length + 1 = l.length
  | [], e, h => by simp at h
  | a :: t, e, h => by
    cases hpa : p a with
    | true =>
      rw [List.eraseP_cons_of_pos hpa]
      rfl
    | false =>
      rw [List.find?_cons_of_neg _ (by simp [hpa])] at h
      rw [List.eraseP_cons_of_neg (by simp [hpa])]
      simp only [List.length_cons]
      rw [length_eraseP_of_found p t e h]

/-- Distinct-count is monotone under list inclusion. -/
theorem numDistinct_le_of_subset (l₁ l₂ : List String) (h : ∀ x ∈ l₁, x ∈ l₂) :
    numDistinct l₁ ≤ numDistinct l₂ :=
  Finset.card_le_card (fun x hx => List.mem_toFinset.mpr (h x (List.mem_toFinset.mp hx)))

/-- Appending one unseen string raises the distinct-count by one. -/
theorem numDistinct_append_singleton (l : List String) (u : String) (h : u ∉ l) :
    numDistinct (l ++ [u]) = numDistinct l + 1 := by
  simp only [numDistinct, List.toFinset_append, List.toFinset_cons, List.toFinset_nil,
    insert_emptyc_eq]
  rw [Finset.union_comm, ← Finset.insert_eq]
  exact Finset.card_insert_of_not_mem (by simpa using h)

/-- Invariant of a call sequence through `lru_cache(maxsize=128)`: as long
as the distinct keys stay within the capacity, every key already called
has a cache entry holding exactly the wrapped function's value for it,
entries never hold anything else, and the cache never exceeds the number
of distinct keys seen. -/
theorem lru_run_inv {V : Type} (f : String → V) :
    ∀ (rem : List String) (c : Cache V) (seen : List String),
      (∀ e ∈ c.entries, e.2 = f e.1) →
      (∀ k ∈ seen, c.entries.find? (fun x => x.1 == k) = some (k, f k)) →
      c.entries.length ≤ numDistinct seen →
      numDistinct (seen ++ rem) ≤ 128 →
      (∀ e ∈ (lru_run f c rem).entries, e.2 = f e.1)
      ∧ (∀ k ∈ seen ++ rem,
          (lru_run f c rem).entries.find? (fun x => x.1 == k) = some (k, f k))
      ∧ (lru_run f c rem).entries.length ≤ numDistinct (seen ++ rem)
  | [], c, seen, hval, hfind, hlen, _ => by
    simp only [lru_run, List.foldl_nil, List.append_nil]
    exact ⟨hval, hfind, hlen⟩
  | u :: rest, c, seen, hval, hfind, hlen, hbound => by
    have hassoc : seen ++ u :: rest = (seen ++ [u]) ++ rest := by simp
    have hbound' : numDistinct ((seen ++ [u]) ++ rest) ≤ 128 := by rw [← hassoc]; exact hbound
    have hrun : lru_run f c (u :: rest) = lru_run f (lru_call f c u).cache rest := rfl
    cases hu : c.entries.find? (fun x => x.1 == u) with
    | some e =>
      obtain ⟨e1, e2⟩ := e
      have he1 : e1 = u := by
        have := List.find?_some hu
        simpa using this
      subst he1
      have he2 : e2 = f e1 := hval (e1, e2) (List.mem_of_find?_eq_some hu)
      subst he2
      have hcache : (lru_call f c e1).cache.entries
          = (e1, f e1) :: c.entries.eraseP (fun x => x.1 == e1) := by
        simp [lru_call, hu]
      have hval' : ∀ e' ∈ (lru_call f c e1).cache.entries, e'.2 = f e'.1 := by
        rw [hcache]
        intro e' he'
        rcases List.mem_cons.mp he' with h | h
        · rw [h]
        · exact hval e' ((List.eraseP_sublist c.entries).subset h)
      have hfind' : ∀ k ∈ seen ++ [e1],
          (lru_call f c e1).cache.entries.find? (fun x => x.1 == k) = some (k, f k) := by
        intro k hk
        rw [hcache]
        by_cases hke : k = e1
        · subst hke
          rw [List.find?_cons_of_pos _ (by simp)]
        · rw [List.find?_cons_of_neg _ (by simp [Ne.symm hke])]
          rw [find?_eraseP_of_disjoint _ _ ?_]
          · have hks : k ∈ seen := by
              rcases List.mem_append.mp hk with h | h
              · exact h
              · simp at h; exact absurd h hke
            exact hfind k hks
          · intro x hx
            have : x.1 = k := by simpa using hx
            simp [this, hke]
      have hlen' : (lru_call f c e1).cache.entries.length ≤ numDistinct (seen ++ [e1]) := by
        rw [hcache]
        simp only [List.length_cons]
        rw [length_eraseP_of_found _ c.entries (e1, f e1) hu]
        exact le_trans hlen
          (numDistinct_le_of_subset seen (seen ++ [e1]) (fun x hx => List.mem_append_left _ hx))
      have hrec := lru_run_inv f rest (lru_call f c e1).cache (seen ++ [e1])
        hval' hfind' hlen' hbound'
      rw [hrun, hassoc]
      exact hrec
    | none =>
      have hun : u ∉ seen := by
        intro hus
        rw [hfind u hus] at hu
        cases hu
      have hdist : numDistinct (seen ++ [u]) = numDistinct seen + 1 :=
        numDistinct_append_singleton seen u hun
      have hsub : numDistinct (seen ++ [u]) ≤ numDistinct (seen ++ u :: rest) :=
        numDistinct_le_of_subset _ _ (by
          intro x hx
          rcases List.mem_append.mp hx with h | h
          · exact List.mem_append_left _ h
          · simp at h; subst h; exact List.mem_append_right _ (List.mem_cons_self _ _))
      have hsmall : ¬ 128 < ((u, f u) :: c.entries).length := by
        simp only [List.length_cons]
        have h1 : c.entries.length + 1 ≤ numDistinct (seen ++ [u]) := by omega
        have h2 : numDistinct (seen ++ [u]) ≤ 128 := le_trans hsub hbound
        omega
      have hcache : (lru_call f c u).cache.entries = (u, f u) :: c.entries := by
        simp only [lru_call, hu]
        rw [if_neg hsmall]
      have hval' : ∀ e' ∈ (lru_call f c u).cache.entries, e'.2 = f e'.1 := by
        rw [hcache]
        intro e' he'
        rcases List.mem_cons.mp he' with h | h
        · rw [h]
        · exact hval e' h
      have hfind' : ∀ k ∈ seen ++ [u],
          (lru_call f c u).cache.entries.find? (fun x => x.1 == k) = some (k, f k) := by
        intro k hk
        rw [hcache]
        by_cases hke : k = u
        · subst hke
          rw [List.find?_cons_of_pos _ (by simp)]
        · rw [List.find?_cons_of_neg _ (by simp [Ne.symm hke])]
          have hks : k ∈ seen := by
            rcases List.mem_append.mp hk with h | h
            · exact h
            · simp at h; exact absurd h hke
          exact hfind k hks
      have hlen' : (lru_call f c u).cache.entries.length ≤ numDistinct (seen ++ [u]) := by
        rw [hcache]
        simp only [List.length_cons]
        omega
      have hrec := lru_run_inv f rest (lru_call f c u).cache (seen ++ [u])
        hval' hfind' hlen' hbound'
      rw [hrun, hassoc]
      exact hrec

set_option maxRecDepth 100000 in
/-- C2 counterexample: classify 129 distinct URLs (`u0` … `u128`) in one
process; the cache holds at most 128 entries, `u0` has been evicted, and
the next classification of `u0` re-runs the inspection — refuting "a URL
is never re-classified within a process lifetime". -/
theorem c2_counterexample :
    (lru_call (get_url_info_uncached (fun _ => Primary.noInfo))
      (classify_run (fun _ => Primary.noInfo)
        ((List.range 129).map (fun i => "u" ++ toString i))) "u0").recomputed = true := by
  decide

/-- C2 amended: classification is memoized per process in an LRU cache
bounded at 128 entries and keyed by the exact URL string.  As long as at
most 128 distinct URLs have been classified, every URL already classified
keeps its own immutable cache entry — in particular two distinct strings
(such as query-order variants) have separate entries — and a further call
for it is a hit: the inspection is not re-run and the cached result is
returned.  Beyond 128 distinct URLs, least-recently-used entries are
evicted and those URLs are re-classified on their next call. -/
theorem c2_memoization_amended (primaryOf : String → Primary) (us : List String) (u : String)
    (hu : u ∈ us) (hcard : numDistinct us ≤ 128) :
    (classify_run primaryOf us).entries.find? (fun e => e.1 == u)
        = some (u, get_url_info_uncached primaryOf u)
    ∧ (lru_call (get_url_info_uncached primaryOf) (classify_run primaryOf us) u).recomputed
        = false
    ∧ (lru_call (get_url_info_uncached primaryOf) (classify_run primaryOf us) u).value
        = get_url_info_uncached primaryOf u := by
  have hinv := lru_run_inv (get_url_info_uncached primaryOf) us (Cache.empty _) []
    (by intro e he; cases he) (by intro k hk; cases hk)
    (by simp [Cache.empty, numDistinct]) (by simpa using hcard)
  have hfind : (classify_run primaryOf us).entries.find? (fun e => e.1 == u)
      = some (u, get_url_info_uncached primaryOf u) := hinv.2.1 u (by simpa using hu)
  refine ⟨hfind, ?_, ?_⟩ <;> simp [lru_call, hfind]

/-- C2 witness: two URLs differing only by query-parameter order are
classified; the first keeps its own separate cache entry and its re-call
is a hit returning the cached result without re-running inspection. -/
theorem c2_memoization_amended_witness :
    ("https://y.com/w?a=1&list=L" ∈ ["https://y.com/w?a=1&list=L", "https://y.com/w?list=L&a=1"]
      ∧ numDistinct ["https://y.com/w?a=1&list=L", "https://y.com/w?list=L&a=1"] ≤ 128)
    ∧ ((classify_run (fun _ => Primary.noInfo)
          ["https://y.com/w?a=1&list=L", "https://y.com/w?list=L&a=1"]).entries.find?
            (fun e => e.1 == "https://y.com/w?a=1&list=L")
        = some ("https://y.com/w?a=1&list=L",
            get_url_info_uncached (fun _ => Primary.noInfo) "https://y.com/w?a=1&list=L")
      ∧ (lru_call (get_url_info_uncached (fun _ => Primary.noInfo))
          (classify_run (fun _ => Primary.noInfo)
            ["https://y.com/w?a=1&list=L", "https://y.com/w?list=L&a=1"])
          "https://y.com/w?a=1&list=L").recomputed = false
      ∧ (lru_call (get_url_info_uncached (fun _ => Primary.noInfo))
          (classify_run (fun _ => Primary.noInfo)
            ["https://y.com/w?a=1&list=L", "https://y.com/w?list=L&a=1"])
          "https://y.com/w?a=1&list=L").value
        = get_url_info_uncached (fun _ => Primary.noInfo) "https://y.com/w?a=1&list=L") :=
  ⟨⟨by decide, by decide⟩,
    c2_memoization_amended (fun _ => Primary.noInfo)
      ["https://y.com/w?a=1&list=L", "https://y.com/w?list=L&a=1"]
      "https://y.com/w?a=1&list=L" (by decide) (by decide)⟩

end Descarga
